import Mathlib

/-!
Verification of the translation-memory database module
(src/translate/storage/tmdb.py) against its specification.

The module stores source/target string pairs in an SQLite database and
answers fuzzy-match queries.  We give a shallow embedding:

* the two SQLite tables (sources, targets) become lists of records;
* a connection is a pair of database states, `committed` and `current`;
  `commit` publishes `current`, `rollback` discards it;
* SQLite uniqueness semantics are embedded explicitly: a UNIQUE index
  never fires when one of the indexed values is NULL (NULLs are distinct
  from everything, including other NULLs), and the SQL comparison
  `context = ?` with a NULL parameter is never true;
* Python exceptions become `Except` results; a raising operation on a
  connection returns the error together with the connection state it
  leaves behind;
* exact rational arithmetic stands in for the Python float arithmetic of
  the length-bound helpers (the inputs involved are small integers and
  the claims under study are insensitive to the difference);
* the Levenshtein comparer (translate/search/lshtein.py, not part of the
  sources under study) is an abstract scoring function parameter.
-/

namespace Tmdb

/-- Modelled from the spec: `translate.lang.data.normalize_code` is not under
src/ (only its caller tmdb.py is).  Section 4.5 step 1 of the spec describes
it as case/region canonicalization of a language identifier; we model it as
lowercasing with the underscore region separator unified to a hyphen.
It performs no validation and never raises. -/
def normalize_code (code : String) : String :=
  String.mk (code.data.map fun c => if c = '_' then '-' else c.toLower)

/-- A row of the `sources` table:
sid, text, context (nullable), lang, length (see init_database). -/
structure SourceRow where
  sid : Nat
  text : String
  context : Option String
  lang : String
  length : Nat
deriving DecidableEq

/-- A row of the `targets` table:
tid, sid (foreign key), text, lang, time (nullable). -/
structure TargetRow where
  tid : Nat
  sid : Nat
  text : String
  lang : String
  time : Option Int
deriving DecidableEq

/-- The persistent store: the two tables plus the AUTOINCREMENT counters. -/
structure DB where
  sources : List SourceRow
  targets : List TargetRow
  nextSid : Nat
  nextTid : Nat
deriving DecidableEq

def emptyDB : DB := ⟨[], [], 1, 1⟩

/-- An SQLite connection: the durable state and the working state of the
open transaction. -/
structure Conn where
  committed : DB
  current : DB
deriving DecidableEq

def emptyConn : Conn := ⟨emptyDB, emptyDB⟩

/-- connection.commit(): publish the working state. -/
def commitConn (c : Conn) : Conn := ⟨c.current, c.current⟩

/-- connection.rollback(): discard the working state. -/
def rollbackConn (c : Conn) : Conn := ⟨c.committed, c.committed⟩

/-- The Python exceptions that can escape the insert paths of tmdb.py. -/
inductive TMErr where
  | languageError (msg : String)
  | keyError (key : String)
  | typeError
deriving DecidableEq

/-- SQL equality of the nullable context column: `context = ?` is true only
when both sides are non-NULL and equal.  The UNIQUE index on
(text, context, lang) fires under exactly the same condition, because
SQLite treats NULLs in a unique index as distinct from everything. -/
def ctxEqSql : Option String → Option String → Bool
  | some a, some b => a = b
  | _, _ => false

/-- The row predicate shared by the sources UNIQUE index
(text, context, lang) and the sid-recovery SELECT of add_dict. -/
def srcMatches (text : String) (ctx : Option String) (lang : String)
    (r : SourceRow) : Bool :=
  r.text = text && r.lang = lang && ctxEqSql r.context ctx

/-- Does inserting (text, ctx, lang) violate the sources_uniq_idx index? -/
def uniqueConflictSource (db : DB) (text : String) (ctx : Option String)
    (lang : String) : Bool :=
  db.sources.any (srcMatches text ctx lang)

/-- `SELECT sid FROM sources WHERE text=? AND context=? AND lang=?`
(first matching row, if any). -/
def selectSid (db : DB) (text : String) (ctx : Option String)
    (lang : String) : Option Nat :=
  (db.sources.find? (srcMatches text ctx lang)).map (fun r => r.sid)

/-- Lines 218-231 of tmdb.py (the source-insert block of add_dict): try to
INSERT the source row; on IntegrityError instead SELECT the existing sid.
A failed SELECT (fetchone() returning None) makes the tuple unpacking
raise TypeError.  Returns the sid together with the updated connection. -/
def addSource (c : Conn) (text : String) (ctx : Option String)
    (lang : String) : Except TMErr (Nat × Conn) :=
  let db := c.current
  if uniqueConflictSource db text ctx lang then
    match selectSid db text ctx lang with
    | none => .error .typeError
    | some sid => .ok (sid, c)
  else
    .ok (db.nextSid,
      ⟨c.committed,
        ⟨db.sources ++ [⟨db.nextSid, text, ctx, lang, text.length⟩],
          db.targets, db.nextSid + 1, db.nextTid⟩⟩)

/-- The row predicate of the targets UNIQUE index (sid, text, lang); all
three columns are NOT NULL, so this is plain equality. -/
def tgtMatches (sid : Nat) (text lang : String) (r : TargetRow) : Bool :=
  r.sid = sid && r.text = text && r.lang = lang

/-- Does inserting (sid, text, lang) violate the targets_uniq_idx index? -/
def uniqueConflictTarget (db : DB) (sid : Nat) (text lang : String) : Bool :=
  db.targets.any (tgtMatches sid text lang)

/-- Lines 233-239 of tmdb.py (the target-insert block of add_dict): INSERT
the target row with the current clock value, with IntegrityError
suppressed (duplicate row: do nothing, keep the stored timestamp). -/
def addTarget (c : Conn) (sid : Nat) (text lang : String) (now : Int) : Conn :=
  let db := c.current
  if uniqueConflictTarget db sid text lang then c
  else
    ⟨c.committed,
      ⟨db.sources, db.targets ++ [⟨db.nextTid, sid, text, lang, some now⟩],
        db.nextSid, db.nextTid + 1⟩⟩

/-- A raw unit dictionary as accepted by add_dict / add_list.  Each field is
the value found under the corresponding key, `none` meaning the key is
absent (so that reading it raises KeyError); the context value itself is
nullable. -/
structure UnitDict where
  source : Option String
  context : Option (Option String)
  target : Option String
deriving DecidableEq

/-- TMDB.add_dict (lines 213-246): normalize both language codes, insert
the source row (reusing the existing sid on a uniqueness conflict), insert
the target row (no-op on a uniqueness conflict), then commit if requested.
On any escaping exception, roll back if and only if this call owns the
commit (commitFlag true), and re-raise.  The `now` argument is the value
of the clock read int(time.time()). -/
def add_dict (u : UnitDict) (source_lang target_lang : String)
    (commitFlag : Bool) (now : Int) (c : Conn) : Except TMErr Unit × Conn :=
  let sl := normalize_code source_lang
  let tl := normalize_code target_lang
  match u.source with
  | none => (.error (.keyError (r"source")), if commitFlag then rollbackConn c else c)
  | some src =>
    match u.context with
    | none => (.error (.keyError (r"context")), if commitFlag then rollbackConn c else c)
    | some ctx =>
      match addSource c src ctx sl with
      | .error e => (.error e, if commitFlag then rollbackConn c else c)
      | .ok (sid, c1) =>
        match u.target with
        | none => (.error (.keyError (r"target")), if commitFlag then rollbackConn c1 else c1)
        | some tgt =>
          let c2 := addTarget c1 sid tgt tl now
          (.ok Unit.unit, if commitFlag then commitConn c2 else c2)

/-- Loop body of TMDB.add_list: insert each dictionary with commit deferred,
counting the units inserted; an exception aborts the loop and propagates
together with the connection state it leaves behind. -/
def addListLoop (units : List UnitDict) (source_lang target_lang : String)
    (now : Int) (count : Nat) (c : Conn) : Except TMErr Nat × Conn :=
  match units with
  | [] => (.ok count, c)
  | u :: rest =>
    match add_dict u source_lang target_lang false now c with
    | (.error e, c1) => (.error e, c1)
    | (.ok _, c1) => addListLoop rest source_lang target_lang now (count + 1) c1

/-- TMDB.add_list (lines 259-270): insert all dictionaries with commit
deferred, then commit once at the end if requested, returning the count.
An exception propagates without any commit and without any rollback. -/
def add_list (units : List UnitDict) (source_lang target_lang : String)
    (commitFlag : Bool) (now : Int) (c : Conn) : Except TMErr Nat × Conn :=
  match addListLoop units source_lang target_lang now 0 c with
  | (.error e, c1) => (.error e, c1)
  | (.ok n, c1) => (.ok n, if commitFlag then commitConn c1 else c1)

/-- The translation-unit abstraction consumed by add_unit / add_store
(spec section 6): source text, target text, context, the per-unit language
getters and the two predicates gating bulk insertion.  The language getters
can return None (`none`) or a string; the Python code treats None and the
empty string alike as absent (falsy). -/
structure StoreUnit where
  source : String
  target : String
  context : Option String
  sourcelanguage : Option String
  targetlanguage : Option String
  translatable : Bool
  translated : Bool
deriving DecidableEq

/-- Python truthiness of an optional string: None and the empty string are
falsy. -/
def truthy : Option String → Bool
  | none => false
  | some s => !s.isEmpty

/-- Lines 196-199 of tmdb.py: a truthy per-unit language getter overrides
the caller-supplied default. -/
def resolveLang (override fallback : Option String) : Option String :=
  if truthy override then override else fallback

/-- TMDB.add_unit (lines 191-211): resolve both languages (unit override
first, then the caller default), raise LanguageError before touching the
store when either resolves to nothing truthy, otherwise build the unit
dictionary and delegate to add_dict. -/
def add_unit (u : StoreUnit) (source_lang target_lang : Option String)
    (commitFlag : Bool) (now : Int) (c : Conn) : Except TMErr Unit × Conn :=
  let sl := resolveLang u.sourcelanguage source_lang
  let tl := resolveLang u.targetlanguage target_lang
  if truthy sl = false then
    (.error (.languageError (r"undefined source language")), c)
  else if truthy tl = false then
    (.error (.languageError (r"undefined target language")), c)
  else
    add_dict ⟨some u.source, some u.context, some u.target⟩
      (sl.getD (r"")) (tl.getD (r"")) commitFlag now c

/-- The filter gating bulk insertion in TMDB.add_store:
unit.istranslatable() and unit.istranslated(). -/
def storeFilter (u : StoreUnit) : Bool := u.translatable && u.translated

/-- Loop body of TMDB.add_store: insert (with commit deferred) exactly the
units passing storeFilter, counting them; other units are skipped without
touching the store or the count. -/
def addStoreLoop (units : List StoreUnit) (source_lang target_lang : Option String)
    (now : Int) (count : Nat) (c : Conn) : Except TMErr Nat × Conn :=
  match units with
  | [] => (.ok count, c)
  | u :: rest =>
    if storeFilter u then
      match add_unit u source_lang target_lang false now c with
      | (.error e, c1) => (.error e, c1)
      | (.ok _, c1) => addStoreLoop rest source_lang target_lang now (count + 1) c1
    else addStoreLoop rest source_lang target_lang now count c

/-- TMDB.add_store (lines 248-257): insert every translatable-and-translated
unit of the collection with commit deferred, commit once at the end if
requested, and return the count of units inserted. -/
def add_store (units : List StoreUnit) (source_lang target_lang : Option String)
    (commitFlag : Bool) (now : Int) (c : Conn) : Except TMErr Nat × Conn :=
  match addStoreLoop units source_lang target_lang now 0 c with
  | (.error e, c1) => (.error e, c1)
  | (.ok n, c1) => (.ok n, if commitFlag then commitConn c1 else c1)

/-- min_levenshtein_length (lines 329-330):
ceil(max(length * (min_similarity / 100.0), 2)), in exact arithmetic. -/
def min_levenshtein_length (length : Nat) (min_similarity : ℚ) : Int :=
  ⌈max ((length : ℚ) * (min_similarity / 100)) 2⌉

/-- max_levenshtein_length (lines 333-334):
floor(min(length / (min_similarity / 100.0), max_length)), in exact
arithmetic. -/
def max_levenshtein_length (length : Nat) (min_similarity : ℚ)
    (max_length : Nat) : Int :=
  ⌊min ((length : ℚ) / (min_similarity / 100)) (max_length : ℚ)⌋

/-- A word character in the sense of the re module: STRIP_REGEXP matches
every character that is not a word character.  (The embedding uses the
ASCII classification of alphanumeric characters.) -/
def isWordChar (c : Char) : Bool := c.isAlphanum || c = '_'

/-- Split a character stream at non-word characters, accumulating the
current word in reverse; this implements
STRIP_REGEXP.sub(" ", s).split(). -/
def wordsAux : List Char → List Char → List String
  | [], acc => if acc.isEmpty then [] else [String.mk acc.reverse]
  | c :: cs, acc =>
    if isWordChar c then wordsAux cs (c :: acc)
    else if acc.isEmpty then wordsAux cs []
    else String.mk acc.reverse :: wordsAux cs []

/-- Lines 292-293 of tmdb.py: replace every non-word character by a space,
split on whitespace, and keep the tokens longer than 2 characters. -/
def stripWords (s : String) : List String :=
  (wordsAux s.data []).filter (fun w => w.length > 2)

/-- The language arguments of translate_unit: either a single language
code or a list of codes (the isinstance(…, list) test). -/
inductive LangSpec where
  | single (code : String)
  | listOf (codes : List String)

/-- Lines 274-283 of tmdb.py: a list of languages is normalized elementwise
and then joined with commas into ONE string, which is bound to the single
placeholder of `lang IN (?)`; a plain string is just normalized. -/
def langParam : LangSpec → String
  | .single code => normalize_code code
  | .listOf codes => String.intercalate (r",") (codes.map normalize_code)

/-- One candidate row of the ranking query: the SELECT list is
s.text, t.text, s.context, s.lang, t.lang; we also carry s.length for the
BETWEEN filter. -/
structure CandRow where
  stext : String
  ttext : String
  context : Option String
  slang : String
  tlang : String
  slength : Nat
deriving DecidableEq

/-- FROM sources s JOIN targets t ON s.sid = t.sid (in storage order). -/
def joinRows (db : DB) : List CandRow :=
  db.sources.flatMap fun s =>
    (db.targets.filter fun t => t.sid = s.sid).map fun t =>
      ⟨s.text, t.text, s.context, s.lang, t.lang, s.length⟩

/-- The abstract similarity comparer
(LevenshteinComparer.similarity(a, b, stoppercentage), whose source
translate/search/lshtein.py is outside the code under study).  Modelled
from the spec, section 4.1: a scoring function returning a 0-100 quality
percentage; the claims under study hold for every such function. -/
abbrev Comparer := String → String → Nat → Nat

/-- The fts3 MATCH predicate of the fulltext path, abstract as well:
given a source text and the OR-joined search string, does the row match?
(fts3 is an SQLite module, not code of this repository.) -/
abbrev FtMatch := String → String → Bool

/-- The recognized configuration options of TMDB.__init__ with their
defaults: max_candidates 3, min_similarity 75, max_length 1000. -/
structure Config where
  max_candidates : Nat
  min_similarity : Nat
  max_length : Nat
deriving DecidableEq

/-- The WHERE clause shared by both query shapes of translate_unit:
`s.lang IN (?)` and `t.lang IN (?)` with a SINGLE bound parameter each --
which SQL evaluates as plain equality with that parameter -- plus the
closed length interval. -/
def rowFilter (sparam tparam : String) (minlen maxlen : Int) (r : CandRow) : Bool :=
  r.slang = sparam && r.tlang = tparam
    && minlen ≤ (r.slength : Int) && (r.slength : Int) ≤ maxlen

/-- Lines 295-309 of tmdb.py: the candidate query.  The fulltext shape is
used only when the store has fts3 support and the query has more than 3
significant words; it adds the MATCH condition against the OR-joined
word list.  Otherwise the plain range scan runs. -/
def queryRows (cfg : Config) (fulltext : Bool) (ft : FtMatch) (db : DB)
    (unit_source : String) (source_langs target_langs : LangSpec) : List CandRow :=
  let sparam := langParam source_langs
  let tparam := langParam target_langs
  let minlen := min_levenshtein_length unit_source.length (cfg.min_similarity : ℚ)
  let maxlen := max_levenshtein_length unit_source.length (cfg.min_similarity : ℚ) cfg.max_length
  let unit_words := stripWords unit_source
  if fulltext && unit_words.length > 3 then
    (joinRows db).filter fun r =>
      rowFilter sparam tparam minlen maxlen r
        && ft r.stext (String.intercalate (r" OR ") unit_words)
  else
    (joinRows db).filter (rowFilter sparam tparam minlen maxlen)

/-- A match record of the result list:
{source, target, context, quality}. -/
structure MatchResult where
  source : String
  target : String
  context : Option String
  quality : Nat
deriving DecidableEq

/-- Lines 311-322 of tmdb.py, per row: score the candidate against the
query with the comparer and keep it only when the quality reaches
min_similarity. -/
def scoreRow (cfg : Config) (cmp : Comparer) (unit_source : String)
    (r : CandRow) : Option MatchResult :=
  let quality := cmp unit_source r.stext cfg.min_similarity
  if cfg.min_similarity ≤ quality then
    some ⟨r.stext, r.ttext, r.context, quality⟩
  else none

/-- The result list of translate_unit before sorting, in retrieval order. -/
def scoredResults (cfg : Config) (cmp : Comparer) (fulltext : Bool) (ft : FtMatch)
    (db : DB) (unit_source : String) (source_langs target_langs : LangSpec) :
    List MatchResult :=
  (queryRows cfg fulltext ft db unit_source source_langs target_langs).filterMap
    (scoreRow cfg cmp unit_source)

/-- The comparison used by results.sort(key=itemgetter("quality"),
reverse=True): higher quality first. -/
def qge (a b : MatchResult) : Prop := b.quality ≤ a.quality

instance : DecidableRel qge := fun a b => Nat.decLe b.quality a.quality

instance : IsTotal MatchResult qge := ⟨fun a b => Nat.le_total b.quality a.quality⟩

instance : IsTrans MatchResult qge := ⟨fun _ _ _ h1 h2 => Nat.le_trans h2 h1⟩

/-- Line 323 of tmdb.py: list.sort of Python is a stable sort, and with
reverse=True it keeps the retrieval order of equal-quality entries while
putting strictly higher qualities first; a stable sort is unique, so the
stable insertion sort by `qge` is that sort. -/
def sortDesc (l : List MatchResult) : List MatchResult :=
  List.insertionSort qge l

/-- TMDB.translate_unit (lines 272-326): normalize and join the language
arguments, derive the length bounds, run the candidate query, score and
filter, sort by descending quality, truncate to max_candidates.  The body
contains no raise statement (and normalize_code never raises), so the
result is always `ok`. -/
def translate_unit (cfg : Config) (cmp : Comparer) (fulltext : Bool) (ft : FtMatch)
    (db : DB) (unit_source : String) (source_langs target_langs : LangSpec) :
    Except TMErr (List MatchResult) :=
  .ok ((sortDesc (scoredResults cfg cmp fulltext ft db unit_source
      source_langs target_langs)).take cfg.max_candidates)

/-! ### Concrete fixtures used by counterexamples and witnesses -/

/-- TMDB defaults: max_candidates 3, min_similarity 75, max_length 1000. -/
def demoCfg : Config := ⟨3, 75, 1000⟩

/-- A concrete comparer: 100 for identical strings, 0 otherwise. -/
def demoCmp : Comparer := fun a b _ => if a = b then 100 else 0

/-- No fulltext match ever (also: all demo stores have fulltext disabled). -/
def noFt : FtMatch := fun _ _ => false

/-- A store holding one English source with one French translation. -/
def demoDb : DB :=
  ⟨[⟨1, r"Hello world", none, r"en", 11⟩],
    [⟨1, 1, r"Bonjour monde", r"fr", some 5⟩], 2, 2⟩

/-- The match record the demo store yields for the query "Hello world". -/
def demoMatch : MatchResult := ⟨r"Hello world", r"Bonjour monde", none, 100⟩

/-! ### Helper lemmas -/

/-- Length bound 9 for the demo query (length 11, similarity 75). -/
lemma demo_minlen :
    min_levenshtein_length (r"Hello world").length ((demoCfg.min_similarity : ℚ)) = 9 := by
  rw [show (r"Hello world").length = 11 from rfl, show demoCfg.min_similarity = 75 from rfl]
  norm_num [min_levenshtein_length, Int.ceil_eq_iff, max_def]

/-- Length bound 14 for the demo query (length 11, similarity 75, cap 1000). -/
lemma demo_maxlen :
    max_levenshtein_length (r"Hello world").length ((demoCfg.min_similarity : ℚ))
      demoCfg.max_length = 14 := by
  rw [show (r"Hello world").length = 11 from rfl, show demoCfg.min_similarity = 75 from rfl,
    show demoCfg.max_length = 1000 from rfl]
  norm_num [max_levenshtein_length, Int.floor_eq_iff, min_def]

/-- Evaluation of the demo query with a single (matching) source language. -/
lemma demo_translate_en :
    translate_unit demoCfg demoCmp false noFt demoDb (r"Hello world")
      (.single (r"en")) (.single (r"fr")) = .ok [demoMatch] := by
  simp only [translate_unit, scoredResults, queryRows, demo_minlen, demo_maxlen]
  rfl

/-! ### C4: length bounds -/

/-- C4 counterexample: at length 0 (similarity 75, cap 1000) the claimed
inequality min_levenshtein_length <= max_levenshtein_length fails: the
minimum bound is 2 (the floor of the max with 2) while the maximum bound
is 0. -/
theorem lev_length_bounds_cex :
    ¬ min_levenshtein_length 0 75 ≤ max_levenshtein_length 0 75 1000 := by
  have h1 : min_levenshtein_length 0 75 = 2 := by
    norm_num [min_levenshtein_length, Int.ceil_eq_iff, max_def]
  have h2 : max_levenshtein_length 0 75 1000 = 0 := by
    norm_num [max_levenshtein_length, Int.floor_eq_iff, min_def]
  rw [h1, h2]
  norm_num

/-- C4 (amended): for every similarity in (0,100] and every length with
2 <= length <= cap, min_levenshtein_length(length, s) is at most
max_levenshtein_length(length, s, cap). -/
theorem min_le_max_levenshtein_length (length : Nat) (s : ℚ) (cap : Nat)
    (hs0 : 0 < s) (hs1 : s ≤ 100) (hl : 2 ≤ length) (hcap : length ≤ cap) :
    min_levenshtein_length length s ≤ max_levenshtein_length length s cap := by
  have hq : (0 : ℚ) < s / 100 := by positivity
  have hle1 : s / 100 ≤ 1 := by
    rw [div_le_one (by norm_num : (0:ℚ) < 100)]
    exact hs1
  have hmul : (length : ℚ) * (s / 100) ≤ (length : ℚ) :=
    mul_le_of_le_one_right (by positivity) hle1
  have h2l : (2 : ℚ) ≤ (length : ℚ) := by exact_mod_cast hl
  calc min_levenshtein_length length s ≤ (length : Int) := by
        rw [min_levenshtein_length]
        apply Int.ceil_le.mpr
        push_cast
        exact max_le hmul h2l
    _ ≤ max_levenshtein_length length s cap := by
        rw [max_levenshtein_length]
        apply Int.le_floor.mpr
        push_cast
        apply le_min
        · rw [le_div_iff₀ hq]
          exact hmul
        · exact_mod_cast hcap

/-- C4 witness: the amended inequality at length 5, similarity 75,
cap 1000. -/
theorem min_le_max_levenshtein_length_witness :
    min_levenshtein_length 5 75 ≤ max_levenshtein_length 5 75 1000 :=
  min_le_max_levenshtein_length 5 75 1000 (by norm_num) (by norm_num)
    (by norm_num) (by norm_num)

/-! ### C8: duplicate target insert -/

/-- C8: inserting the same (sid, text, lang) target twice is a no-op the
second time: the connection state is unchanged, and the single row carrying
that triple keeps the timestamp of the first insert. -/
theorem addTarget_duplicate_preserves (c : Conn) (sid : Nat) (text lang : String)
    (t1 t2 : Int) (h : uniqueConflictTarget c.current sid text lang = false) :
    addTarget (addTarget c sid text lang t1) sid text lang t2
        = addTarget c sid text lang t1 ∧
    ((addTarget c sid text lang t1).current.targets.filter
        (tgtMatches sid text lang)).map (fun r => r.time) = [some t1] := by
  have hrow : tgtMatches sid text lang
      ⟨c.current.nextTid, sid, text, lang, some t1⟩ = true := by
    simp [tgtMatches]
  have hnone : ∀ r ∈ c.current.targets, ¬ tgtMatches sid text lang r = true := by
    rw [← List.any_eq_false]
    exact h
  have hfirst : addTarget c sid text lang t1 =
      ⟨c.committed, ⟨c.current.sources,
        c.current.targets ++ [⟨c.current.nextTid, sid, text, lang, some t1⟩],
        c.current.nextSid, c.current.nextTid + 1⟩⟩ := by
    rw [addTarget, if_neg (by simp [h])]
  have hconf2 : uniqueConflictTarget (addTarget c sid text lang t1).current
      sid text lang = true := by
    rw [hfirst]
    simp only [uniqueConflictTarget, List.any_append]
    rw [Bool.or_eq_true]
    right
    simp [hrow]
  constructor
  · rw [addTarget, if_pos hconf2]
  · rw [hfirst]
    simp only []
    rw [List.filter_append, List.filter_eq_nil_iff.mpr hnone]
    simp [hrow]

/-- C8 witness: the duplicate-target property at a concrete store and
timestamps 10 then 20. -/
theorem addTarget_duplicate_preserves_witness :
    addTarget (addTarget emptyConn 1 (r"Bonjour") (r"fr") 10) 1 (r"Bonjour") (r"fr") 20
        = addTarget emptyConn 1 (r"Bonjour") (r"fr") 10 ∧
    ((addTarget emptyConn 1 (r"Bonjour") (r"fr") 10).current.targets.filter
        (tgtMatches 1 (r"Bonjour") (r"fr"))).map (fun r => r.time) = [some 10] :=
  addTarget_duplicate_preserves emptyConn 1 (r"Bonjour") (r"fr") 10 20 (by rfl)

/-! ### C9: unresolvable unit language -/

/-- C9: when neither the unit override nor the caller default yields a
truthy source language (or target language), add_unit raises LanguageError
and leaves the connection -- both committed and pending state -- untouched. -/
theorem add_unit_language_error (u : StoreUnit) (source_lang target_lang : Option String)
    (commitFlag : Bool) (now : Int) (c : Conn)
    (h : truthy (resolveLang u.sourcelanguage source_lang) = false
        ∨ truthy (resolveLang u.targetlanguage target_lang) = false) :
    (∃ msg, (add_unit u source_lang target_lang commitFlag now c).1
        = .error (.languageError msg)) ∧
    (add_unit u source_lang target_lang commitFlag now c).2 = c := by
  simp only [add_unit]
  by_cases hs : truthy (resolveLang u.sourcelanguage source_lang) = false
  · rw [if_pos hs]
    exact ⟨⟨_, rfl⟩, rfl⟩
  · have ht : truthy (resolveLang u.targetlanguage target_lang) = false := by
      rcases h with h | h
      · exact absurd h hs
      · exact h
    rw [if_neg hs, if_pos ht]
    exact ⟨⟨_, rfl⟩, rfl⟩

/-- C9 witness: a unit with no language information inserted with no
defaults raises LanguageError and inserts nothing. -/
theorem add_unit_language_error_witness :
    (∃ msg, (add_unit ⟨r"Hello", r"Bonjour", none, none, none, true, true⟩
        none none true 0 emptyConn).1 = .error (.languageError msg)) ∧
    (add_unit ⟨r"Hello", r"Bonjour", none, none, none, true, true⟩
        none none true 0 emptyConn).2 = emptyConn :=
  add_unit_language_error ⟨r"Hello", r"Bonjour", none, none, none, true, true⟩
    none none true 0 emptyConn (Or.inl (by rfl))

/-! ### C5: duplicate source insert -/

/-- The store after one insert of the source ("hello", NULL, "en"). -/
def nullCtxDB1 : DB := ⟨[⟨1, r"hello", none, r"en", 5⟩], [], 2, 1⟩

/-- The store after two inserts of the source ("hello", NULL, "en"):
SQLite unique indexes treat NULL contexts as distinct, so a second row
appears. -/
def nullCtxDB2 : DB :=
  ⟨[⟨1, r"hello", none, r"en", 5⟩, ⟨2, r"hello", none, r"en", 5⟩], [], 3, 1⟩

/-- C5 counterexample: with a NULL context, the second insert of the very
same (text, context, language) triple does NOT resolve to the existing id:
the UNIQUE index never fires on NULL, so a second row is created and a
fresh id (2, not 1) is returned. -/
theorem addSource_null_context_cex :
    addSource emptyConn (r"hello") none (r"en") = .ok (1, ⟨emptyDB, nullCtxDB1⟩) ∧
    addSource ⟨emptyDB, nullCtxDB1⟩ (r"hello") none (r"en")
      = .ok (2, ⟨emptyDB, nullCtxDB2⟩) :=
  ⟨rfl, rfl⟩

/-- C5 (amended): for a NON-NULL context, inserting the same
(text, context, language) source twice yields the same id both times and
leaves the store exactly as after the first insert (no second row). -/
theorem addSource_nonnull_duplicate (c : Conn) (text ctx lang : String)
    (sid1 : Nat) (c1 : Conn)
    (h : addSource c text (some ctx) lang = .ok (sid1, c1)) :
    addSource c1 text (some ctx) lang = .ok (sid1, c1) := by
  rw [addSource] at h
  by_cases hconf : uniqueConflictSource c.current text (some ctx) lang = true
  · rw [if_pos hconf] at h
    rcases hsel : selectSid c.current text (some ctx) lang with _ | sid
    · rw [hsel] at h
      exact absurd h (by simp)
    · rw [hsel] at h
      have hpair := Except.ok.inj h
      obtain ⟨rfl, rfl⟩ : sid = sid1 ∧ c = c1 :=
        ⟨congrArg Prod.fst hpair, congrArg Prod.snd hpair⟩
      rw [addSource, if_pos hconf, hsel]
  · rw [if_neg hconf] at h
    have hpair := Except.ok.inj h
    have hsid : c.current.nextSid = sid1 := congrArg Prod.fst hpair
    have hc1 : (⟨c.committed, ⟨c.current.sources ++
            [⟨c.current.nextSid, text, some ctx, lang, text.length⟩],
          c.current.targets, c.current.nextSid + 1, c.current.nextTid⟩⟩ : Conn)
        = c1 := congrArg Prod.snd hpair
    have hnoold : ∀ r ∈ c.current.sources,
        ¬ srcMatches text (some ctx) lang r = true := by
      rw [← List.any_eq_false]
      exact Bool.not_eq_true _ ▸ Bool.of_not_eq_true hconf
    have hrow : srcMatches text (some ctx) lang
        ⟨c.current.nextSid, text, some ctx, lang, text.length⟩ = true := by
      simp [srcMatches, ctxEqSql]
    have hsel1 : selectSid c1.current text (some ctx) lang = some sid1 := by
      rw [← hc1]
      simp only [selectSid, List.find?_append, List.find?_eq_none.mpr hnoold,
        Option.none_or]
      rw [List.find?_cons_of_pos _ hrow]
      simp [hsid]
    rw [addSource]
    rw [if_pos (by
      rw [← hc1]
      simp only [uniqueConflictSource, List.any_append, Bool.or_eq_true]
      right
      simp [hrow])]
    rw [hsel1, ← hc1]

/-- The store after inserting the source ("hello", "ctx", "en") once. -/
def someCtxConn1 : Conn := ⟨emptyDB, ⟨[⟨1, r"hello", some (r"ctx"), r"en", 5⟩], [], 2, 1⟩⟩

/-- C5 witness: the amended duplicate-source property at a concrete
non-null-context insert. -/
theorem addSource_nonnull_duplicate_witness :
    addSource someCtxConn1 (r"hello") (some (r"ctx")) (r"en") = .ok (1, someCtxConn1) :=
  addSource_nonnull_duplicate emptyConn (r"hello") (r"ctx") (r"en") 1 someCtxConn1 rfl

/-! ### C2: batch insert error handling -/

/-- addSource never touches the committed state. -/
lemma addSource_committed (c : Conn) (text : String) (ctx : Option String)
    (lang : String) (sid : Nat) (c1 : Conn)
    (h : addSource c text ctx lang = .ok (sid, c1)) :
    c1.committed = c.committed := by
  rw [addSource] at h
  by_cases hconf : uniqueConflictSource c.current text ctx lang = true
  · rw [if_pos hconf] at h
    rcases hsel : selectSid c.current text ctx lang with _ | sid2
    · rw [hsel] at h
      exact absurd h (by simp)
    · rw [hsel] at h
      have h2 : (Except.ok (sid2, c) : Except TMErr (Nat × Conn)) = .ok (sid, c1) := h
      cases h2
      rfl
  · rw [if_neg hconf] at h
    have h2 : (Except.ok
        (c.current.nextSid,
          (⟨c.committed, ⟨c.current.sources ++
              [⟨c.current.nextSid, text, ctx, lang, text.length⟩],
            c.current.targets, c.current.nextSid + 1, c.current.nextTid⟩⟩ : Conn)) :
          Except TMErr (Nat × Conn)) = .ok (sid, c1) := h
    cases h2
    rfl

/-- addTarget never touches the committed state. -/
lemma addTarget_committed (c : Conn) (sid : Nat) (text lang : String) (now : Int) :
    (addTarget c sid text lang now).committed = c.committed := by
  rw [addTarget]
  by_cases hconf : uniqueConflictTarget c.current sid text lang = true
  · rw [if_pos hconf]
  · rw [if_neg hconf]

/-- add_dict with commit deferred never touches the committed state --
in particular it does NOT roll back on an error. -/
lemma add_dict_nocommit_committed (u : UnitDict) (source_lang target_lang : String)
    (now : Int) (c : Conn) :
    (add_dict u source_lang target_lang false now c).2.committed = c.committed := by
  rw [add_dict]
  cases hs : u.source with
  | none => rfl
  | some src =>
    cases hctx : u.context with
    | none => rfl
    | some ctx =>
      cases ha : addSource c src ctx (normalize_code source_lang) with
      | error e => simp [ha]
      | ok p =>
        rcases p with ⟨sid, c1⟩
        have hc1 : c1.committed = c.committed :=
          addSource_committed c src ctx (normalize_code source_lang) sid c1 ha
        cases ht : u.target with
        | none => simp [ha, ht, hc1]
        | some tgt => simp [ha, ht, addTarget_committed, hc1]

/-- The add_list loop never touches the committed state. -/
lemma addListLoop_committed (units : List UnitDict) (source_lang target_lang : String)
    (now : Int) : ∀ (count : Nat) (c : Conn),
    (addListLoop units source_lang target_lang now count c).2.committed = c.committed := by
  induction units with
  | nil => intro count c; rfl
  | cons u rest ih =>
    intro count c
    rw [addListLoop]
    rcases hd : add_dict u source_lang target_lang false now c with ⟨res, c1⟩
    have hcomm : c1.committed = c.committed := by
      have hh := add_dict_nocommit_committed u source_lang target_lang now c
      rw [hd] at hh
      exact hh
    cases res with
    | error e => exact hcomm
    | ok v => rw [ih (count + 1) c1]; exact hcomm

/-- When add_list fails, the committed store is unchanged at propagation
time (no commit has happened; also no rollback, see below). -/
lemma add_list_error_committed (units : List UnitDict)
    (source_lang target_lang : String) (commitFlag : Bool) (now : Int) (c : Conn)
    (e : TMErr)
    (h : (add_list units source_lang target_lang commitFlag now c).1 = .error e) :
    (add_list units source_lang target_lang commitFlag now c).2.committed
      = c.committed := by
  rw [add_list] at h ⊢
  rcases hloop : addListLoop units source_lang target_lang now 0 c with ⟨res, c1⟩
  have hcomm : c1.committed = c.committed := by
    have hh := addListLoop_committed units source_lang target_lang now 0 c
    rw [hloop] at hh
    exact hh
  rw [hloop] at h
  cases res with
  | error e2 => exact hcomm
  | ok n =>
    have h2 : (Except.ok n : Except TMErr Nat) = .error e := h
    cases h2

/-- add_unit with commit deferred never touches the committed state: the
LanguageError branches return the connection untouched and the add_dict
branch defers the commit. -/
lemma add_unit_nocommit_committed (u : StoreUnit)
    (source_lang target_lang : Option String) (now : Int) (c : Conn) :
    (add_unit u source_lang target_lang false now c).2.committed = c.committed := by
  rw [add_unit]
  by_cases hs : truthy (resolveLang u.sourcelanguage source_lang) = false
  · rw [if_pos hs]
  · rw [if_neg hs]
    by_cases ht : truthy (resolveLang u.targetlanguage target_lang) = false
    · rw [if_pos ht]
    · rw [if_neg ht]
      exact add_dict_nocommit_committed _ _ _ _ _

/-- The add_store loop never touches the committed state. -/
lemma addStoreLoop_preserves_committed (units : List StoreUnit)
    (source_lang target_lang : Option String) (now : Int) :
    ∀ (count : Nat) (c : Conn),
    (addStoreLoop units source_lang target_lang now count c).2.committed
      = c.committed := by
  induction units with
  | nil => intro count c; rfl
  | cons u rest ih =>
    intro count c
    rcases ha : add_unit u source_lang target_lang false now c with ⟨res, c1⟩
    have hcomm : c1.committed = c.committed := by
      have hh := add_unit_nocommit_committed u source_lang target_lang now c
      rw [ha] at hh
      exact hh
    by_cases hu : storeFilter u = true
    · cases res with
      | error e =>
        simp only [addStoreLoop, hu, ha, if_true]
        exact hcomm
      | ok v =>
        simp only [addStoreLoop, hu, ha, if_true]
        rw [ih (count + 1) c1]
        exact hcomm
    · simp only [addStoreLoop, Bool.of_not_eq_true hu, Bool.false_eq_true, if_false]
      exact ih count c

/-- When add_store fails, the committed store is unchanged at propagation
time (no commit has happened; also no rollback, see below). -/
lemma add_store_error_committed (units : List StoreUnit)
    (source_lang target_lang : Option String) (commitFlag : Bool) (now : Int)
    (c : Conn) (e : TMErr)
    (h : (add_store units source_lang target_lang commitFlag now c).1 = .error e) :
    (add_store units source_lang target_lang commitFlag now c).2.committed
      = c.committed := by
  rw [add_store] at h ⊢
  rcases hloop : addStoreLoop units source_lang target_lang now 0 c with ⟨res, c1⟩
  have hcomm : c1.committed = c.committed := by
    have hh := addStoreLoop_preserves_committed units source_lang target_lang now 0 c
    rw [hloop] at hh
    exact hh
  rw [hloop] at h
  cases res with
  | error e2 => exact hcomm
  | ok n =>
    have h2 : (Except.ok n : Except TMErr Nat) = .error e := h
    cases h2

/-- C2 (amended): when a batch insert -- add_list over unit dictionaries or
add_store over a store collection -- fails, the exception propagates before
any commit, so the committed store is unchanged at that point; the pending
partial inserts of the batch, however, are NOT rolled back (see the
counterexample theorem). -/
theorem batch_insert_error_committed_unchanged
    (dicts : List UnitDict) (dict_source_lang dict_target_lang : String)
    (units : List StoreUnit) (store_source_lang store_target_lang : Option String)
    (commitFlag : Bool) (now : Int) (c c2 : Conn) :
    (∀ e, (add_list dicts dict_source_lang dict_target_lang commitFlag now c).1
        = .error e →
      (add_list dicts dict_source_lang dict_target_lang commitFlag now c).2.committed
        = c.committed) ∧
    (∀ e, (add_store units store_source_lang store_target_lang commitFlag now c2).1
        = .error e →
      (add_store units store_source_lang store_target_lang commitFlag now c2).2.committed
        = c2.committed) :=
  ⟨fun e h => add_list_error_committed dicts dict_source_lang dict_target_lang
      commitFlag now c e h,
    fun e h => add_store_error_committed units store_source_lang store_target_lang
      commitFlag now c2 e h⟩

/-- A well-formed unit dictionary. -/
def goodUnit : UnitDict := ⟨some (r"hello"), some none, some (r"world")⟩

/-- A unit dictionary whose "target" key is missing: reading it raises
KeyError after the source row was already inserted. -/
def badUnit : UnitDict := ⟨some (r"bye"), some none, none⟩

/-- A store unit with per-unit language overrides, translatable and
translated. -/
def storeUnitEn : StoreUnit :=
  ⟨r"Hello", r"Bonjour", none, some (r"en"), some (r"fr"), true, true⟩

/-- A translatable, translated store unit with no language information:
with no caller defaults either, inserting it raises LanguageError. -/
def storeUnitNoLang : StoreUnit :=
  ⟨r"Bye", r"Au revoir", none, none, none, true, true⟩

/-- C2 counterexample: batches whose second unit fails mid-run -- via
add_list (missing "target" key) and via add_store (unresolvable language) --
propagate the error, but neither batch is rolled back: in both cases the
pending state still differs from the committed state (it retains the rows
already inserted), and a later commit on the same connection publishes
those rows.  The claim as stated (whole batch rolled back, all-or-nothing)
is therefore false; only "nothing is committed yet at propagation time"
survives. -/
theorem batch_insert_no_rollback_cex :
    (add_list [goodUnit, badUnit] (r"en") (r"fr") true 0 emptyConn).1
        = .error (.keyError (r"target")) ∧
    (add_list [goodUnit, badUnit] (r"en") (r"fr") true 0 emptyConn).2.current ≠
      (add_list [goodUnit, badUnit] (r"en") (r"fr") true 0 emptyConn).2.committed ∧
    ((commitConn (add_list [goodUnit, badUnit] (r"en") (r"fr") true 0
        emptyConn).2).committed.sources.map (fun r => r.text)) = [r"hello", r"bye"] ∧
    (add_store [storeUnitEn, storeUnitNoLang] none none true 0 emptyConn).1
        = .error (.languageError (r"undefined source language")) ∧
    (add_store [storeUnitEn, storeUnitNoLang] none none true 0 emptyConn).2.current ≠
      (add_store [storeUnitEn, storeUnitNoLang] none none true 0 emptyConn).2.committed ∧
    ((commitConn (add_store [storeUnitEn, storeUnitNoLang] none none true 0
        emptyConn).2).committed.sources.map (fun r => r.text)) = [r"Hello"] :=
  ⟨rfl, by decide, rfl, rfl, by decide, rfl⟩

/-- C2 witness (for the amended theorem): at the two failing concrete
batches the committed store is indeed unchanged when the error
propagates -- for the add_list path and for the add_store path. -/
theorem batch_insert_error_committed_unchanged_witness :
    (add_list [goodUnit, badUnit] (r"en") (r"fr") true 0 emptyConn).2.committed
        = emptyConn.committed ∧
    (add_store [storeUnitEn, storeUnitNoLang] none none true 0 emptyConn).2.committed
        = emptyConn.committed :=
  ⟨(batch_insert_error_committed_unchanged [goodUnit, badUnit] (r"en") (r"fr")
      [storeUnitEn, storeUnitNoLang] none none true 0 emptyConn emptyConn).1
      (.keyError (r"target")) rfl,
    (batch_insert_error_committed_unchanged [goodUnit, badUnit] (r"en") (r"fr")
      [storeUnitEn, storeUnitNoLang] none none true 0 emptyConn emptyConn).2
      (.languageError (r"undefined source language")) rfl⟩

/-! ### C10: add_store inserts exactly the translatable translated units -/

/-- The add_store loop behaves exactly as if it were run on the filtered
unit list: units failing the two predicates contribute nothing. -/
lemma addStoreLoop_filter_eq (units : List StoreUnit)
    (source_lang target_lang : Option String) (now : Int) :
    ∀ (count : Nat) (c : Conn),
    addStoreLoop units source_lang target_lang now count c
      = addStoreLoop (units.filter storeFilter) source_lang target_lang now count c := by
  induction units with
  | nil => intro count c; rfl
  | cons u rest ih =>
    intro count c
    rcases ha : add_unit u source_lang target_lang false now c with ⟨res, c2⟩
    by_cases hu : storeFilter u = true
    · rw [List.filter_cons_of_pos hu]
      cases res with
      | error e => simp only [addStoreLoop, hu, ha, if_true]
      | ok v =>
        simp only [addStoreLoop, hu, ha, if_true]
        exact ih (count + 1) c2
    · rw [List.filter_cons_of_neg hu]
      simp only [addStoreLoop, Bool.of_not_eq_true hu, Bool.false_eq_true, if_false]
      exact ih count c

/-- When the add_store loop succeeds, its count is the starting count plus
the number of units passing the two predicates. -/
lemma addStoreLoop_count (units : List StoreUnit)
    (source_lang target_lang : Option String) (now : Int) :
    ∀ (count : Nat) (c : Conn) (n : Nat) (c1 : Conn),
    addStoreLoop units source_lang target_lang now count c = (.ok n, c1) →
      n = count + (units.filter storeFilter).length := by
  induction units with
  | nil =>
    intro count c n c1 h
    have h2 : ((Except.ok count : Except TMErr Nat), c) = (.ok n, c1) := h
    have h3 := Except.ok.inj (congrArg Prod.fst h2)
    simpa using h3.symm
  | cons u rest ih =>
    intro count c n c1 h
    rcases ha : add_unit u source_lang target_lang false now c with ⟨res, c2⟩
    by_cases hu : storeFilter u = true
    · cases res with
      | error e =>
        simp only [addStoreLoop, hu, ha, if_true] at h
        exact absurd (congrArg Prod.fst h) (by simp)
      | ok v =>
        simp only [addStoreLoop, hu, ha, if_true] at h
        have hn := ih (count + 1) c2 n c1 h
        rw [List.filter_cons_of_pos hu, List.length_cons]
        omega
    · simp only [addStoreLoop, Bool.of_not_eq_true hu, Bool.false_eq_true, if_false] at h
      rw [List.filter_cons_of_neg hu]
      exact ih count c n c1 h

/-- C10: when add_store succeeds, the returned count is exactly the number
of units passing both istranslatable() and istranslated(), and the whole
run (connection effects included) coincides with a run over just those
units -- the remaining units are silently skipped. -/
theorem add_store_filters_and_counts (units : List StoreUnit)
    (source_lang target_lang : Option String) (commitFlag : Bool) (now : Int)
    (c : Conn) (n : Nat) (c1 : Conn)
    (h : add_store units source_lang target_lang commitFlag now c = (.ok n, c1)) :
    n = (units.filter storeFilter).length ∧
    add_store units source_lang target_lang commitFlag now c
      = add_store (units.filter storeFilter) source_lang target_lang commitFlag now c := by
  constructor
  · rw [add_store] at h
    rcases hloop : addStoreLoop units source_lang target_lang now 0 c with ⟨res, c2⟩
    rw [hloop] at h
    cases res with
    | error e =>
      have h2 : ((Except.error e : Except TMErr Nat), c2) = (.ok n, c1) := h
      exact absurd (congrArg Prod.fst h2) (by simp)
    | ok m =>
      have h2 : ((Except.ok m : Except TMErr Nat),
          if commitFlag then commitConn c2 else c2) = (.ok n, c1) := h
      have hm : m = n := Except.ok.inj (congrArg Prod.fst h2)
      have := addStoreLoop_count units source_lang target_lang now 0 c m c2 hloop
      omega
  · rw [add_store, add_store, addStoreLoop_filter_eq units source_lang target_lang now 0 c]

/-- The connection state after the successful demo bulk insert: one unit
inserted and committed. -/
def storeConn1 : Conn :=
  ⟨⟨[⟨1, r"Hello", none, r"en", 5⟩], [⟨1, 1, r"Bonjour", r"fr", some 0⟩], 2, 2⟩,
    ⟨[⟨1, r"Hello", none, r"en", 5⟩], [⟨1, 1, r"Bonjour", r"fr", some 0⟩], 2, 2⟩⟩

/-- C10 witness: a two-unit store collection whose second unit is
untranslated inserts exactly one unit and returns count 1. -/
theorem add_store_filters_and_counts_witness :
    1 = ([⟨r"Hello", r"Bonjour", none, none, none, true, true⟩,
          ⟨r"Bye", r"", none, none, none, true, false⟩].filter storeFilter).length ∧
    add_store [⟨r"Hello", r"Bonjour", none, none, none, true, true⟩,
          ⟨r"Bye", r"", none, none, none, true, false⟩]
        (some (r"en")) (some (r"fr")) true 0 emptyConn
      = add_store ([⟨r"Hello", r"Bonjour", none, none, none, true, true⟩,
          ⟨r"Bye", r"", none, none, none, true, false⟩].filter storeFilter)
        (some (r"en")) (some (r"fr")) true 0 emptyConn :=
  add_store_filters_and_counts
    [⟨r"Hello", r"Bonjour", none, none, none, true, true⟩,
      ⟨r"Bye", r"", none, none, none, true, false⟩]
    (some (r"en")) (some (r"fr")) true 0 emptyConn 1 storeConn1 rfl

/-! ### Sorting lemmas: the descending quality sort is stable -/

/-- Inserting x into l moves x past exactly the entries of strictly higher
quality, so the sublist of entries with any fixed quality q either gains x
at its front (when x has quality q) or is untouched. -/
lemma filter_orderedInsert (q : Nat) (x : MatchResult) (l : List MatchResult) :
    (List.orderedInsert qge x l).filter (fun r => r.quality = q)
      = if x.quality = q then x :: l.filter (fun r => r.quality = q)
        else l.filter (fun r => r.quality = q) := by
  induction l with
  | nil =>
    simp only [List.orderedInsert]
    by_cases hx : x.quality = q
    · rw [if_pos hx, List.filter_cons_of_pos (by simp [hx]), List.filter_nil]
    · rw [if_neg hx, List.filter_cons_of_neg (by simp [hx]), List.filter_nil]
  | cons y ys ih =>
    simp only [List.orderedInsert]
    by_cases hxy : qge x y
    · rw [if_pos hxy]
      by_cases hx : x.quality = q
      · rw [if_pos hx, List.filter_cons_of_pos (by simp [hx])]
      · rw [if_neg hx, List.filter_cons_of_neg (by simp [hx])]
    · rw [if_neg hxy]
      by_cases hy : y.quality = q
      · have hx : ¬ x.quality = q := fun hx => hxy (le_of_eq (by rw [hy, hx]))
        rw [if_neg hx, List.filter_cons_of_pos (by simp [hy]),
          List.filter_cons_of_pos (by simp [hy]), ih, if_neg hx]
      · rw [List.filter_cons_of_neg (by simp [hy]),
          List.filter_cons_of_neg (by simp [hy]), ih]

/-- Stability of the descending sort: for every quality value, sorting
preserves the relative order (and multiplicity) of the entries carrying
that quality. -/
lemma filter_sortDesc (q : Nat) (l : List MatchResult) :
    (sortDesc l).filter (fun r => r.quality = q)
      = l.filter (fun r => r.quality = q) := by
  induction l with
  | nil => rfl
  | cons x xs ih =>
    rw [sortDesc, List.insertionSort]
    rw [show List.insertionSort qge xs = sortDesc xs from rfl]
    rw [filter_orderedInsert, ih]
    by_cases hx : x.quality = q
    · rw [if_pos hx, List.filter_cons_of_pos (by simp [hx])]
    · rw [if_neg hx, List.filter_cons_of_neg (by simp [hx])]

/-! ### C6: result list is capped, sorted, stable -/

/-- C6: every result list of translate_unit has length at most
max_candidates, is sorted by non-increasing quality, and is tie-stable:
for every quality value q, the q-quality entries of the result form a
prefix of the q-quality entries of the retrieval-ordered scored list. -/
theorem translate_unit_sorted_capped (cfg : Config) (cmp : Comparer)
    (fulltext : Bool) (ft : FtMatch) (db : DB) (unit_source : String)
    (source_langs target_langs : LangSpec) (res : List MatchResult) (q : Nat)
    (h : translate_unit cfg cmp fulltext ft db unit_source source_langs target_langs
      = .ok res) :
    res.length ≤ cfg.max_candidates ∧
    res.Pairwise (fun a b => b.quality ≤ a.quality) ∧
    res.filter (fun r => r.quality = q) <+:
      (scoredResults cfg cmp fulltext ft db unit_source source_langs
        target_langs).filter (fun r => r.quality = q) := by
  rw [translate_unit] at h
  have hres := (Except.ok.inj h).symm
  subst hres
  refine ⟨List.length_take_le _ _, ?_, ?_⟩
  · have hs := List.sorted_insertionSort qge
      (scoredResults cfg cmp fulltext ft db unit_source source_langs target_langs)
    exact List.Pairwise.sublist (List.take_sublist _ _) hs
  · refine ⟨((sortDesc (scoredResults cfg cmp fulltext ft db unit_source
        source_langs target_langs)).drop cfg.max_candidates).filter
        (fun r => r.quality = q), ?_⟩
    rw [← List.filter_append, List.take_append_drop]
    exact filter_sortDesc q _

/-- C6 witness: the single-row demo query returns one result; the three
properties hold at it for quality value 100. -/
theorem translate_unit_sorted_capped_witness :
    ([demoMatch] : List MatchResult).length ≤ demoCfg.max_candidates ∧
    ([demoMatch] : List MatchResult).Pairwise (fun a b => b.quality ≤ a.quality) ∧
    ([demoMatch] : List MatchResult).filter (fun r => r.quality = 100) <+:
      (scoredResults demoCfg demoCmp false noFt demoDb (r"Hello world")
        (.single (r"en")) (.single (r"fr"))).filter (fun r => r.quality = 100) :=
  translate_unit_sorted_capped demoCfg demoCmp false noFt demoDb (r"Hello world")
    (.single (r"en")) (.single (r"fr")) [demoMatch] 100 demo_translate_en

/-! ### C7: min_similarity threshold -/

/-- C7: every match record returned by translate_unit has quality at least
the configured min_similarity. -/
theorem translate_unit_quality_threshold (cfg : Config) (cmp : Comparer)
    (fulltext : Bool) (ft : FtMatch) (db : DB) (unit_source : String)
    (source_langs target_langs : LangSpec) (res : List MatchResult) (m : MatchResult)
    (h : translate_unit cfg cmp fulltext ft db unit_source source_langs target_langs
      = .ok res) (hm : m ∈ res) :
    cfg.min_similarity ≤ m.quality := by
  rw [translate_unit] at h
  have hres := (Except.ok.inj h).symm
  subst hres
  have h1 : m ∈ sortDesc (scoredResults cfg cmp fulltext ft db unit_source
      source_langs target_langs) := List.mem_of_mem_take hm
  rw [sortDesc] at h1
  have h2 : m ∈ scoredResults cfg cmp fulltext ft db unit_source
      source_langs target_langs :=
    (List.perm_insertionSort qge _).mem_iff.mp h1
  rw [scoredResults] at h2
  obtain ⟨r, hr, hsc⟩ := List.mem_filterMap.mp h2
  simp only [scoreRow] at hsc
  by_cases hq : cfg.min_similarity ≤ cmp unit_source r.stext cfg.min_similarity
  · rw [if_pos hq] at hsc
    cases Option.some.inj hsc
    exact hq
  · rw [if_neg hq] at hsc
    exact absurd hsc (by simp)

/-- C7 witness: the demo result record has quality 100, at least the
configured threshold 75. -/
theorem translate_unit_quality_threshold_witness :
    demoCfg.min_similarity ≤ demoMatch.quality :=
  translate_unit_quality_threshold demoCfg demoCmp false noFt demoDb (r"Hello world")
    (.single (r"en")) (.single (r"fr")) [demoMatch] demoMatch demo_translate_en
    (by simp)

/-! ### C1: language-list membership -/

/-- C1 (the code at the failing input): with source_langs=["en","de"],
target_langs="fr", the store row with source language "en" is NOT
returned -- the joined parameter "en,de" is compared for equality by
`lang IN (?)`, so the query matches nothing -- whereas the very same row
IS returned when source_langs is the single language "en".  Membership is
decided against the joined list as a whole, not per element. -/
theorem translate_unit_lang_list_mismatch :
    translate_unit demoCfg demoCmp false noFt demoDb (r"Hello world")
        (.listOf [r"en", r"de"]) (.single (r"fr")) = .ok [] ∧
    translate_unit demoCfg demoCmp false noFt demoDb (r"Hello world")
        (.single (r"en")) (.single (r"fr")) = .ok [demoMatch] :=
  ⟨rfl, demo_translate_en⟩

/-! ### C3: no language validation in translate_unit -/

/-- C3 counterexample: translate_unit called with an empty source language
does not raise LanguageError (or anything else): the candidate query runs
against the normalized empty string, matches no row, and the call returns
an ordinary empty result. -/
theorem translate_unit_empty_lang_no_error :
    translate_unit demoCfg demoCmp false noFt demoDb (r"Hello world")
        (.single (r"")) (.single (r"fr")) = .ok [] := rfl

/-- C3 (amended): translate_unit performs no validation of its language
arguments and never raises; every call returns an ok result list. -/
theorem translate_unit_never_raises (cfg : Config) (cmp : Comparer)
    (fulltext : Bool) (ft : FtMatch) (db : DB) (unit_source : String)
    (source_langs target_langs : LangSpec) :
    ∃ res, translate_unit cfg cmp fulltext ft db unit_source source_langs
      target_langs = .ok res :=
  ⟨_, rfl⟩

end Tmdb
